import Mathlib

/-
Verification development for the blossom-sol program
(programs/blossom-sol/src/lib.rs) against its natural-language
specification.

The source file itself is a minimal Anchor scaffold: the single entrypoint
`execute_intent(_ctx: Context<ExecuteIntent>, _amount: u64)` has the body
`Ok(())`, and the accounts struct `ExecuteIntent` declares no accounts.
The first part of this file embeds that code directly.  The second part
models, from the specification's words, the intent-execution subsystem
(Intent Validator, Account Resolver, Replay/Nonce Guard, State Transition
Engine) that the specification describes and whose implementation is
absent from the source.
-/

namespace BlossomSol

/-- An anchor_lang error value, abstracted to its error code.  The source
never constructs one: `execute_intent` returns `Ok(())` unconditionally. -/
structure AnchorError where
  code : Nat
deriving DecidableEq

/-- Embedding of `#[derive(Accounts)] pub struct ExecuteIntent {}`: the
accounts struct declares no account fields at all. -/
structure ExecuteIntent

/-- Embedding of Anchor's `Context<T>`: the handler receives the accounts
bound by its accounts struct. -/
structure Context (A : Type) where
  accounts : A

/-- Embedding of the entrypoint
`pub fn execute_intent(_ctx: Context<ExecuteIntent>, _amount: u64) -> Result<()>`
whose body is the single statement `Ok(())`. -/
def execute_intent (_ctx : Context ExecuteIntent) (_amount : Nat) :
    Except AnchorError Unit :=
  Except.ok ()

/-- The account writes an invocation can persist are exactly the accounts
bound by the `ExecuteIntent` struct; it has no fields, so there are none. -/
def accountUpdates (_accs : ExecuteIntent) : List (Nat × Nat) := []

/-- Anchor runtime write-back: apply each updated account to the ledger
(a pubkey-to-data association list). -/
def writeback (ledger : List (Nat × Nat)) (updates : List (Nat × Nat)) :
    List (Nat × Nat) :=
  updates.foldl (fun l u => l.map (fun p => if p.1 == u.1 then u else p)) ledger

/-- One full invocation of the instruction under the Anchor runtime model:
deserialize the declared accounts (none), run the handler, write back the
accounts the struct binds. -/
def invokeExecuteIntent (ledger : List (Nat × Nat)) (amount : Nat) :
    Except AnchorError Unit × List (Nat × Nat) :=
  let ctx : Context ExecuteIntent := ⟨ExecuteIntent.mk⟩
  (execute_intent ctx amount, writeback ledger (accountUpdates ctx.accounts))

/-- Modelled from the spec: an Intent record
`{id, actor, amount, expiry, signature}` (spec §3); the implementation is
absent from the source. -/
structure Intent where
  id : Nat
  actor : Nat
  amount : Nat
  expiry : Nat
  signature : Nat
deriving DecidableEq

/-- Modelled from the spec: an ExecutionRecord `{executed_at}` persisted per
executed intent id (spec §3); absent from the source. -/
structure ExecutionRecord where
  executed_at : Nat
deriving DecidableEq

/-- Modelled from the spec: the policy bounds the Intent Validator enforces
on `amount` (spec §4.1); absent from the source. -/
structure Policy where
  maxAmount : Nat
deriving DecidableEq

/-- Modelled from the spec: the error taxonomy of §7: ValidationError
(with a reason), NotFoundError, DuplicateExecutionError,
InsufficientFundsError; absent from the source. -/
inductive ExecutionError where
  | validationError (reason : String)
  | notFoundError
  | duplicateExecutionError
  | insufficientFundsError
deriving DecidableEq

/-- Modelled from the spec: the persisted state, one AccountState (balance)
per actor identity and one ExecutionRecord per executed intent id
(spec §3, §6); absent from the source. -/
structure LedgerState where
  accountStates : List (Nat × Nat)
  executionRecords : List (Nat × ExecutionRecord)
deriving DecidableEq

/-- Balance of the AccountState slot for an actor, if present. -/
def lookupAccount (st : LedgerState) (actor : Nat) : Option Nat :=
  (st.accountStates.find? (fun p => p.1 == actor)).map (fun p => p.2)

/-- Whether an ExecutionRecord exists for an intent id. -/
def hasExecutionRecord (st : LedgerState) (i : Nat) : Bool :=
  st.executionRecords.any (fun p => p.1 == i)

/-- The ExecutionRecord stored for an intent id, if any. -/
def recordFind (st : LedgerState) (i : Nat) : Option ExecutionRecord :=
  (st.executionRecords.find? (fun p => p.1 == i)).map (fun p => p.2)

/-- How many ExecutionRecords are stored for an intent id. -/
def recordCount (st : LedgerState) (i : Nat) : Nat :=
  st.executionRecords.countP (fun p => p.1 == i)

/-- Modelled from the spec: the Intent Validator (§4.1).  Checks, in the
order the spec lists them: signature authenticity against `actor`
(an external pure predicate, spec §9), `expiry` not elapsed, `amount`
nonzero and within policy bounds.  No side effects. -/
def validateIntent (sigOk : Intent → Bool) (policy : Policy) (now : Nat)
    (intent : Intent) : Except ExecutionError Unit :=
  if sigOk intent = false then
    Except.error (ExecutionError.validationError "bad signature")
  else if intent.expiry < now then
    Except.error (ExecutionError.validationError "expired")
  else if intent.amount = 0 then
    Except.error (ExecutionError.validationError "zero amount")
  else if policy.maxAmount < intent.amount then
    Except.error (ExecutionError.validationError "outside policy bounds")
  else Except.ok ()

/-- Modelled from the spec: the Account Resolver (§4.2).  Looks up the
AccountState slot for `Intent.actor`; NotFoundError if absent; read-only. -/
def resolveAccount (st : LedgerState) (intent : Intent) :
    Except ExecutionError Nat :=
  match lookupAccount st intent.actor with
  | some bal => Except.ok bal
  | none => Except.error ExecutionError.notFoundError

/-- Modelled from the spec: the Replay/Nonce Guard (§4.3).  Fails with
DuplicateExecutionError when an ExecutionRecord for `Intent.id` exists. -/
def replayGuard (st : LedgerState) (intent : Intent) :
    Except ExecutionError Unit :=
  if hasExecutionRecord st intent.id then
    Except.error ExecutionError.duplicateExecutionError
  else Except.ok ()

/-- Update the balance stored in the AccountState slot of an actor (the
first slot with that key, which is the one `lookupAccount` reads). -/
def setBalance : List (Nat × Nat) → Nat → Nat → List (Nat × Nat)
  | [], _, _ => []
  | p :: t, actor, newBal =>
    if p.1 == actor then (p.1, newBal) :: t else p :: setBalance t actor newBal

/-- Modelled from the spec: the State Transition Engine (§4.4).  Decrements
the resolved balance by `amount` enforcing non-negativity
(InsufficientFundsError otherwise) and creates the ExecutionRecord in the
same state delta. -/
def applyIntent (st : LedgerState) (now : Nat) (intent : Intent) (bal : Nat) :
    Except ExecutionError LedgerState :=
  if bal < intent.amount then Except.error ExecutionError.insufficientFundsError
  else Except.ok
    { accountStates := setBalance st.accountStates intent.actor (bal - intent.amount)
      executionRecords := (intent.id, ExecutionRecord.mk now) :: st.executionRecords }

/-- Modelled from the spec: the linear composition of §2,
Resolver, then Validator, then Replay Guard, then State Transition Engine,
each a pure function producing a state delta or a rejection. -/
def pipeline (sigOk : Intent → Bool) (policy : Policy) (st : LedgerState)
    (now : Nat) (intent : Intent) : Except ExecutionError LedgerState :=
  match resolveAccount st intent with
  | Except.error e => Except.error e
  | Except.ok bal =>
    match validateIntent sigOk policy now intent with
    | Except.error e => Except.error e
    | Except.ok _ =>
      match replayGuard st intent with
      | Except.error e => Except.error e
      | Except.ok _ => applyIntent st now intent bal

/-- Modelled from the spec: `execute_intent` over the reconstructed
subsystem.  On success the state delta is committed as a single atomic
unit; on any error the host runtime aborts all state changes, so the
pre-state is returned untouched (spec §4.4, §5, §6). -/
def executeIntentModel (sigOk : Intent → Bool) (policy : Policy)
    (st : LedgerState) (now : Nat) (intent : Intent) :
    Except ExecutionError Unit × LedgerState :=
  match pipeline sigOk policy st now intent with
  | Except.ok st2 => (Except.ok (), st2)
  | Except.error e => (Except.error e, st)

lemma find_setBalance (l : List (Nat × Nat)) (a nb : Nat) :
    (setBalance l a nb).find? (fun p => p.1 == a) =
      (l.find? (fun p => p.1 == a)).map (fun p => (p.1, nb)) := by
  induction l with
  | nil => rfl
  | cons p t ih =>
    cases hpa : (p.1 == a) with
    | true =>
      rw [setBalance, if_pos hpa]
      simp [List.find?_cons, hpa]
    | false =>
      rw [setBalance, if_neg (by simp [hpa])]
      simpa [List.find?_cons, hpa] using ih

lemma lookup_setBalance_self (l : List (Nat × Nat))
    (rs : List (Nat × ExecutionRecord)) (a nb bal : Nat)
    (h : (l.find? (fun p => p.1 == a)).map (fun p => p.2) = some bal) :
    lookupAccount { accountStates := setBalance l a nb, executionRecords := rs } a
      = some nb := by
  unfold lookupAccount
  simp only [find_setBalance]
  cases hf : l.find? (fun p => p.1 == a) with
  | none => rw [hf] at h; simp at h
  | some p => simp

lemma countP_records_zero (st : LedgerState) (i : Nat)
    (h : hasExecutionRecord st i = false) :
    st.executionRecords.countP (fun p => p.1 == i) = 0 := by
  rw [List.countP_eq_zero]
  intro p hp hpi
  have hany : st.executionRecords.any (fun q => q.1 == i) = true :=
    List.any_eq_true.mpr ⟨p, hp, hpi⟩
  rw [hasExecutionRecord] at h
  rw [h] at hany
  exact Bool.false_ne_true hany

lemma pipeline_ok_inv (sigOk : Intent → Bool) (policy : Policy)
    (st : LedgerState) (now : Nat) (intent : Intent) (st2 : LedgerState)
    (h : pipeline sigOk policy st now intent = Except.ok st2) :
    ∃ bal, lookupAccount st intent.actor = some bal ∧
      validateIntent sigOk policy now intent = Except.ok () ∧
      hasExecutionRecord st intent.id = false ∧
      intent.amount ≤ bal ∧
      st2 = { accountStates := setBalance st.accountStates intent.actor (bal - intent.amount)
              executionRecords := (intent.id, ExecutionRecord.mk now) :: st.executionRecords } := by
  unfold pipeline resolveAccount at h
  cases hl : lookupAccount st intent.actor with
  | none => simp [hl] at h
  | some bal =>
    simp only [hl] at h
    cases hv : validateIntent sigOk policy now intent with
    | error e => simp [hv] at h
    | ok u =>
      cases u
      simp only [hv] at h
      cases hr : hasExecutionRecord st intent.id with
      | true => simp [replayGuard, hr] at h
      | false =>
        have hh : applyIntent st now intent bal = Except.ok st2 := by
          simpa [replayGuard, hr] using h
        by_cases hb : bal < intent.amount
        · simp [applyIntent, hb] at hh
        · simp only [applyIntent, if_neg hb, Except.ok.injEq] at hh
          exact ⟨bal, rfl, rfl, rfl, Nat.not_lt.mp hb, hh.symm⟩

lemma executeIntentModel_of_pipeline_ok (sigOk : Intent → Bool) (policy : Policy)
    (st : LedgerState) (now : Nat) (intent : Intent) (st1 : LedgerState)
    (h : executeIntentModel sigOk policy st now intent = (Except.ok (), st1)) :
    pipeline sigOk policy st now intent = Except.ok st1 := by
  unfold executeIntentModel at h
  cases hq : pipeline sigOk policy st now intent with
  | error e => rw [hq] at h; simp at h
  | ok s2 => rw [hq] at h; simp only [Prod.mk.injEq] at h; rw [h.2]

/-- C1: for every context and every amount, `execute_intent` returns
`Ok(())` — the error branch is never taken — and a full invocation leaves
the ledger unchanged. -/
theorem c1_execute_intent_always_ok (ctx : Context ExecuteIntent) (amount : Nat) :
    execute_intent ctx amount = Except.ok () ∧
    ∀ ledger : List (Nat × Nat),
      invokeExecuteIntent ledger amount = (Except.ok (), ledger) :=
  ⟨rfl, fun _ => rfl⟩

/-- C9: the result of `execute_intent` is independent of the amount
argument: any two amounts give the same result in the same context. -/
theorem c9_amount_noninterference (ctx : Context ExecuteIntent) (a1 a2 : Nat) :
    execute_intent ctx a1 = execute_intent ctx a2 :=
  rfl

/-- C10: the `ExecuteIntent` accounts struct binds no accounts, so an
invocation reads no account state (the result is the same over any ledger)
and leaves every account unchanged: the frame is empty. -/
theorem c10_empty_frame (ledger1 ledger2 : List (Nat × Nat)) (amount : Nat) :
    accountUpdates ExecuteIntent.mk = [] ∧
    (invokeExecuteIntent ledger1 amount).1 = (invokeExecuteIntent ledger2 amount).1 ∧
    (invokeExecuteIntent ledger1 amount).2 = ledger1 :=
  ⟨rfl, rfl, rfl⟩

/-- C2: any invocation of the modelled execute_intent that returns an
error leaves all persisted state (every AccountState and every
ExecutionRecord) exactly as it was before the invocation: errors are
atomic. -/
theorem c2_errors_leave_state_untouched (sigOk : Intent → Bool) (policy : Policy)
    (st : LedgerState) (now : Nat) (intent : Intent) (e : ExecutionError)
    (h : (executeIntentModel sigOk policy st now intent).1 = Except.error e) :
    (executeIntentModel sigOk policy st now intent).2 = st := by
  cases hp : pipeline sigOk policy st now intent with
  | ok st2 => simp [executeIntentModel, hp] at h
  | error e2 => simp [executeIntentModel, hp]

theorem c2_witness :
    (executeIntentModel (fun _ => true) (Policy.mk 100)
        (LedgerState.mk [] []) 10 (Intent.mk 1 1 30 20 0)).1
      = Except.error ExecutionError.notFoundError ∧
    (executeIntentModel (fun _ => true) (Policy.mk 100)
        (LedgerState.mk [] []) 10 (Intent.mk 1 1 30 20 0)).2
      = LedgerState.mk [] [] :=
  ⟨rfl, c2_errors_leave_state_untouched (fun _ => true) (Policy.mk 100)
    (LedgerState.mk [] []) 10 (Intent.mk 1 1 30 20 0)
    ExecutionError.notFoundError rfl⟩

/-- C7: whenever the actor of an intent has no AccountState slot, the
modelled execute_intent fails with NotFoundError and returns the pre-state
untouched (the lookup is read-only). -/
theorem c7_missing_account_not_found (sigOk : Intent → Bool) (policy : Policy)
    (st : LedgerState) (now : Nat) (intent : Intent)
    (hres : lookupAccount st intent.actor = none) :
    executeIntentModel sigOk policy st now intent
      = (Except.error ExecutionError.notFoundError, st) := by
  simp [executeIntentModel, pipeline, resolveAccount, hres]

theorem c7_witness :
    lookupAccount (LedgerState.mk [(2, 50)] []) 1 = none ∧
    executeIntentModel (fun _ => true) (Policy.mk 100)
        (LedgerState.mk [(2, 50)] []) 10 (Intent.mk 1 1 30 20 0)
      = (Except.error ExecutionError.notFoundError, LedgerState.mk [(2, 50)] []) :=
  ⟨rfl, c7_missing_account_not_found (fun _ => true) (Policy.mk 100)
    (LedgerState.mk [(2, 50)] []) 10 (Intent.mk 1 1 30 20 0) rfl⟩

/-- C4: an intent whose expiry lies strictly before the current logical
time is rejected by the modelled execute_intent with a ValidationError,
whatever the actor's balance and whatever the amount, and the state is
untouched.  (The Account Resolver runs first in the spec's pipeline, so
the actor must resolve for the validator to be reached.) -/
theorem c4_expired_rejected (sigOk : Intent → Bool) (policy : Policy)
    (st : LedgerState) (now : Nat) (intent : Intent) (bal : Nat)
    (hres : lookupAccount st intent.actor = some bal)
    (hexp : intent.expiry < now) :
    ∃ reason, executeIntentModel sigOk policy st now intent
      = (Except.error (ExecutionError.validationError reason), st) := by
  cases hsig : sigOk intent with
  | false =>
    exact ⟨"bad signature", by
      simp [executeIntentModel, pipeline, resolveAccount, hres, validateIntent, hsig]⟩
  | true =>
    exact ⟨"expired", by
      simp [executeIntentModel, pipeline, resolveAccount, hres, validateIntent, hsig, hexp]⟩

theorem c4_witness :
    lookupAccount (LedgerState.mk [(1, 100)] []) 1 = some 100 ∧ 5 < 10 ∧
    ∃ reason, executeIntentModel (fun _ => true) (Policy.mk 100)
        (LedgerState.mk [(1, 100)] []) 10 (Intent.mk 2 1 30 5 0)
      = (Except.error (ExecutionError.validationError reason),
          LedgerState.mk [(1, 100)] []) :=
  ⟨rfl, by decide, c4_expired_rejected (fun _ => true) (Policy.mk 100)
    (LedgerState.mk [(1, 100)] []) 10 (Intent.mk 2 1 30 5 0) 100 rfl (by decide)⟩

/-- C6: an intent with amount zero is rejected by the modelled
execute_intent with a ValidationError (the Intent Validator requires a
nonzero amount), the state untouched.  (The Account Resolver runs first in
the spec's pipeline, so the actor must resolve for the validator to be
reached.) -/
theorem c6_zero_amount_rejected (sigOk : Intent → Bool) (policy : Policy)
    (st : LedgerState) (now : Nat) (intent : Intent) (bal : Nat)
    (hres : lookupAccount st intent.actor = some bal)
    (hz : intent.amount = 0) :
    ∃ reason, executeIntentModel sigOk policy st now intent
      = (Except.error (ExecutionError.validationError reason), st) := by
  cases hsig : sigOk intent with
  | false =>
    exact ⟨"bad signature", by
      simp [executeIntentModel, pipeline, resolveAccount, hres, validateIntent, hsig]⟩
  | true =>
    by_cases hexp : intent.expiry < now
    · exact ⟨"expired", by
        simp [executeIntentModel, pipeline, resolveAccount, hres, validateIntent, hsig, hexp]⟩
    · exact ⟨"zero amount", by
        simp [executeIntentModel, pipeline, resolveAccount, hres, validateIntent, hsig, hexp, hz]⟩

theorem c6_witness :
    lookupAccount (LedgerState.mk [(1, 100)] []) 1 = some 100 ∧
    ∃ reason, executeIntentModel (fun _ => true) (Policy.mk 100)
        (LedgerState.mk [(1, 100)] []) 10 (Intent.mk 3 1 0 20 0)
      = (Except.error (ExecutionError.validationError reason),
          LedgerState.mk [(1, 100)] []) :=
  ⟨rfl, c6_zero_amount_rejected (fun _ => true) (Policy.mk 100)
    (LedgerState.mk [(1, 100)] []) 10 (Intent.mk 3 1 0 20 0) 100 rfl rfl⟩

/-- C5: an otherwise valid, non-replayed intent whose amount exceeds the
actor's current balance fails in the modelled execute_intent with
InsufficientFundsError, and the state is returned untouched. -/
theorem c5_insufficient_funds (sigOk : Intent → Bool) (policy : Policy)
    (st : LedgerState) (now : Nat) (intent : Intent) (bal : Nat)
    (hres : lookupAccount st intent.actor = some bal)
    (hsig : sigOk intent = true)
    (hexp : now ≤ intent.expiry)
    (hnz : intent.amount ≠ 0)
    (hpol : intent.amount ≤ policy.maxAmount)
    (hrec : hasExecutionRecord st intent.id = false)
    (hbal : bal < intent.amount) :
    executeIntentModel sigOk policy st now intent
      = (Except.error ExecutionError.insufficientFundsError, st) := by
  have hv : validateIntent sigOk policy now intent = Except.ok () := by
    simp [validateIntent, hsig, hnz, Nat.not_lt.mpr hexp, Nat.not_lt.mpr hpol]
  simp [executeIntentModel, pipeline, resolveAccount, hres, hv, replayGuard, hrec,
    applyIntent, hbal]

theorem c5_witness :
    lookupAccount (LedgerState.mk [(1, 100)] []) 1 = some 100 ∧ 100 < 150 ∧
    executeIntentModel (fun _ => true) (Policy.mk 200)
        (LedgerState.mk [(1, 100)] []) 10 (Intent.mk 4 1 150 20 0)
      = (Except.error ExecutionError.insufficientFundsError,
          LedgerState.mk [(1, 100)] []) :=
  ⟨rfl, by decide, c5_insufficient_funds (fun _ => true) (Policy.mk 200)
    (LedgerState.mk [(1, 100)] []) 10 (Intent.mk 4 1 150 20 0) 100 rfl rfl
    (by decide) (by decide) (by decide) rfl (by decide)⟩

lemma validateIntent_ok_inv (sigOk : Intent → Bool) (policy : Policy)
    (now : Nat) (intent : Intent)
    (h : validateIntent sigOk policy now intent = Except.ok ()) :
    sigOk intent = true ∧ intent.amount ≠ 0 ∧ ¬ policy.maxAmount < intent.amount := by
  cases hsig : sigOk intent with
  | false => simp [validateIntent, hsig] at h
  | true =>
    refine ⟨rfl, ?_, ?_⟩ <;>
    · by_cases he : intent.expiry < now
      · simp [validateIntent, hsig, he] at h
      · by_cases hz : intent.amount = 0
        · simp [validateIntent, hsig, he, hz] at h
        · by_cases hp : policy.maxAmount < intent.amount
          · simp [validateIntent, hsig, he, hz, hp] at h
          · first
            | exact hz
            | exact hp

/-- C3 counterexample: the claim as stated is false in the spec-modelled
pipeline.  With actor 1 holding 100, intent {id 1, actor 1, amount 30,
expiry 20} executes successfully at time 10; yet a second call with the
same intent id at time 25 (past expiry) fails with ValidationError
"expired", and a second call with intent id 1 but an unresolvable actor 9
fails with NotFoundError — neither is DuplicateExecutionError. -/
theorem c3_counterexample :
    executeIntentModel (fun _ => true) (Policy.mk 100)
        (LedgerState.mk [(1, 100)] []) 10 (Intent.mk 1 1 30 20 0)
      = (Except.ok (), LedgerState.mk [(1, 70)] [(1, ExecutionRecord.mk 10)]) ∧
    executeIntentModel (fun _ => true) (Policy.mk 100)
        (LedgerState.mk [(1, 70)] [(1, ExecutionRecord.mk 10)]) 25 (Intent.mk 1 1 30 20 0)
      = (Except.error (ExecutionError.validationError "expired"),
          LedgerState.mk [(1, 70)] [(1, ExecutionRecord.mk 10)]) ∧
    executeIntentModel (fun _ => true) (Policy.mk 100)
        (LedgerState.mk [(1, 70)] [(1, ExecutionRecord.mk 10)]) 10 (Intent.mk 1 9 30 20 0)
      = (Except.error ExecutionError.notFoundError,
          LedgerState.mk [(1, 70)] [(1, ExecutionRecord.mk 10)]) ∧
    ExecutionError.validationError "expired" ≠ ExecutionError.duplicateExecutionError ∧
    ExecutionError.notFoundError ≠ ExecutionError.duplicateExecutionError :=
  ⟨rfl, rfl, rfl, by decide, by decide⟩

/-- C3 (amended): after a successful execution of an intent, a second call
resubmitting the same intent under the same signature predicate and
policy, at any logical time at which the intent has not expired, fails
with DuplicateExecutionError, and the state after the second attempt is
identical to the state after the first successful execution. -/
theorem c3_duplicate_rejected (sigOk : Intent → Bool) (policy : Policy)
    (st st1 : LedgerState) (now now2 : Nat) (intent : Intent)
    (h : executeIntentModel sigOk policy st now intent = (Except.ok (), st1))
    (h2 : now2 ≤ intent.expiry) :
    executeIntentModel sigOk policy st1 now2 intent
      = (Except.error ExecutionError.duplicateExecutionError, st1) := by
  obtain ⟨bal, hl, hv, hr, hb, hst⟩ :=
    pipeline_ok_inv sigOk policy st now intent st1
      (executeIntentModel_of_pipeline_ok sigOk policy st now intent st1 h)
  obtain ⟨hsig, hnz, hpol⟩ := validateIntent_ok_inv sigOk policy now intent hv
  have hv2 : validateIntent sigOk policy now2 intent = Except.ok () := by
    simp [validateIntent, hsig, hnz, hpol, Nat.not_lt.mpr h2]
  subst hst
  have hl2 : lookupAccount
      { accountStates := setBalance st.accountStates intent.actor (bal - intent.amount)
        executionRecords := (intent.id, ExecutionRecord.mk now) :: st.executionRecords }
      intent.actor = some (bal - intent.amount) :=
    lookup_setBalance_self st.accountStates _ intent.actor (bal - intent.amount) bal hl
  have hdup : hasExecutionRecord
      { accountStates := setBalance st.accountStates intent.actor (bal - intent.amount)
        executionRecords := (intent.id, ExecutionRecord.mk now) :: st.executionRecords }
      intent.id = true := by
    simp [hasExecutionRecord]
  simp [executeIntentModel, pipeline, resolveAccount, hl2, hv2, replayGuard, hdup]

theorem c3_witness :
    executeIntentModel (fun _ => true) (Policy.mk 100)
        (LedgerState.mk [(1, 100)] []) 10 (Intent.mk 1 1 30 20 0)
      = (Except.ok (), LedgerState.mk [(1, 70)] [(1, ExecutionRecord.mk 10)]) ∧
    (15 : Nat) ≤ 20 ∧
    executeIntentModel (fun _ => true) (Policy.mk 100)
        (LedgerState.mk [(1, 70)] [(1, ExecutionRecord.mk 10)]) 15 (Intent.mk 1 1 30 20 0)
      = (Except.error ExecutionError.duplicateExecutionError,
          LedgerState.mk [(1, 70)] [(1, ExecutionRecord.mk 10)]) :=
  ⟨rfl, by decide, c3_duplicate_rejected (fun _ => true) (Policy.mk 100)
    (LedgerState.mk [(1, 100)] [])
    (LedgerState.mk [(1, 70)] [(1, ExecutionRecord.mk 10)])
    10 15 (Intent.mk 1 1 30 20 0) rfl (by decide)⟩

lemma records_preserved (sigOk : Intent → Bool) (policy : Policy)
    (st : LedgerState) (now : Nat) (j : Intent) (i : Nat)
    (h : hasExecutionRecord st i = true) :
    recordFind ((executeIntentModel sigOk policy st now j).2) i = recordFind st i ∧
    recordCount ((executeIntentModel sigOk policy st now j).2) i = recordCount st i := by
  cases hp : pipeline sigOk policy st now j with
  | error e => simp [executeIntentModel, hp]
  | ok st2 =>
    obtain ⟨bal, hl, hv, hr, hb, hst⟩ := pipeline_ok_inv sigOk policy st now j st2 hp
    have hji : j.id ≠ i := by
      intro hji
      rw [hji, h] at hr
      simp at hr
    have hne : (j.id == i) = false := by simpa using hji
    constructor
    · simp [executeIntentModel, hp, hst, recordFind, List.find?_cons, hne]
    · simp [executeIntentModel, hp, hst, recordCount, List.countP_cons, hne]

/-- C8: a valid, unexpired, correctly signed, non-replayed intent with
sufficient funds executes successfully, creating exactly one
ExecutionRecord for its id and debiting the actor's AccountState by the
amount exactly once; the record is never mutated or deleted by any later
execution. -/
theorem c8_success_exactly_once (sigOk : Intent → Bool) (policy : Policy)
    (st : LedgerState) (now : Nat) (intent : Intent) (bal : Nat)
    (hres : lookupAccount st intent.actor = some bal)
    (hsig : sigOk intent = true)
    (hexp : now ≤ intent.expiry)
    (hnz : intent.amount ≠ 0)
    (hpol : intent.amount ≤ policy.maxAmount)
    (hrec : hasExecutionRecord st intent.id = false)
    (hbal : intent.amount ≤ bal) :
    ∃ st1, executeIntentModel sigOk policy st now intent = (Except.ok (), st1) ∧
      recordCount st1 intent.id = 1 ∧
      recordFind st1 intent.id = some (ExecutionRecord.mk now) ∧
      lookupAccount st1 intent.actor = some (bal - intent.amount) ∧
      ∀ (sigOk2 : Intent → Bool) (policy2 : Policy) (now2 : Nat) (j : Intent),
        recordFind ((executeIntentModel sigOk2 policy2 st1 now2 j).2) intent.id
          = recordFind st1 intent.id ∧
        recordCount ((executeIntentModel sigOk2 policy2 st1 now2 j).2) intent.id
          = recordCount st1 intent.id := by
  have hv : validateIntent sigOk policy now intent = Except.ok () := by
    simp [validateIntent, hsig, hnz, Nat.not_lt.mpr hexp, Nat.not_lt.mpr hpol]
  have hnb : ¬ bal < intent.amount := Nat.not_lt.mpr hbal
  refine ⟨{ accountStates := setBalance st.accountStates intent.actor (bal - intent.amount)
            executionRecords := (intent.id, ExecutionRecord.mk now) :: st.executionRecords },
    ?_, ?_, ?_, ?_, ?_⟩
  · simp [executeIntentModel, pipeline, resolveAccount, hres, hv, replayGuard, hrec,
      applyIntent, hnb]
  · simp [recordCount, List.countP_cons, countP_records_zero st intent.id hrec]
  · simp [recordFind, List.find?_cons]
  · exact lookup_setBalance_self st.accountStates _ intent.actor (bal - intent.amount) bal hres
  · intro sigOk2 policy2 now2 j
    exact records_preserved sigOk2 policy2 _ now2 j intent.id (by simp [hasExecutionRecord])

theorem c8_witness :
    ∃ st1, executeIntentModel (fun _ => true) (Policy.mk 100)
        (LedgerState.mk [(1, 100)] []) 10 (Intent.mk 1 1 30 20 0)
      = (Except.ok (), st1) ∧
      recordCount st1 1 = 1 ∧
      recordFind st1 1 = some (ExecutionRecord.mk 10) ∧
      lookupAccount st1 1 = some 70 ∧
      ∀ (sigOk2 : Intent → Bool) (policy2 : Policy) (now2 : Nat) (j : Intent),
        recordFind ((executeIntentModel sigOk2 policy2 st1 now2 j).2) 1 = recordFind st1 1 ∧
        recordCount ((executeIntentModel sigOk2 policy2 st1 now2 j).2) 1 = recordCount st1 1 :=
  c8_success_exactly_once (fun _ => true) (Policy.mk 100) (LedgerState.mk [(1, 100)] [])
    10 (Intent.mk 1 1 30 20 0) 100 rfl rfl (by decide) (by decide) (by decide) rfl (by decide)

end BlossomSol
